import Mathlib

/-!
Shallow embedding of xnmt's `loss_tracker.py` and `encoder.py`, together with
theorems checking the natural-language specification against the code.

Conventions of the embedding:
* Python `float` values (wall-clock times, losses, rates) are modelled as `ℚ`
  with exact arithmetic; Python `int` counters as `ℕ`.
* `time.time()` is nondeterministic, so every method that reads the clock takes
  the current instant `now : ℚ` as an explicit argument.
* Python raises `ZeroDivisionError` on `x / 0` and `x % 0` and
  `AttributeError` on access to an attribute that was never assigned
  (`total_train_sent` is assigned only in `on_new_epoch`) or on a method call
  on `None`; fallible methods therefore return `Except PyErr _`.
* A Python method that falls off the end of its body returns `None`; a return
  value that is either `True` or `None` is modelled as `Option Bool`
  (`some true` vs `none`).
-/

set_option autoImplicit false

namespace Xnmt

/-- Python exceptions that the embedded tracker code can raise. -/
inductive PyErr where
  | zeroDivision
  | attributeError
  deriving DecidableEq, Repr

/-- Python float division: `a / b` raises `ZeroDivisionError` when `b == 0`. -/
def pydiv (a b : ℚ) : Except PyErr ℚ :=
  if b = 0 then .error .zeroDivision else .ok (a / b)

/-- Python integer modulus: `a % b` raises `ZeroDivisionError` when `b == 0`. -/
def pymod (a b : ℕ) : Except PyErr ℕ :=
  if b = 0 then .error .zeroDivision else .ok (a % b)

/-- Modelled from the spec: `xnmt.loss.LossBuilder` lives outside the excerpt;
per §3 it is "a mapping from named loss component to running sum".  We model it
as an association list from component name to accumulated value. -/
abbrev LossBuilder := List (String × ℚ)

/-- Total of all loss components, `LossBuilder.sum()` in the source. -/
def LossBuilder.sum (l : LossBuilder) : ℚ :=
  (l.map Prod.snd).sum

/-- Modelled from the spec: accumulation of one component into the mapping. -/
def LossBuilder.insert (l : LossBuilder) (name : String) (v : ℚ) : LossBuilder :=
  match l with
  | [] => [(name, v)]
  | (n, w) :: rest =>
      if n = name then (n, w + v) :: rest else (n, w) :: LossBuilder.insert rest name v

/-- Modelled from the spec: `epoch_loss += loss` merges the incoming per-named
component sums into the running mapping. -/
def LossBuilder.add (a b : LossBuilder) : LossBuilder :=
  b.foldl (fun acc p => LossBuilder.insert acc p.1 p.2) a

/-- Modelled from the spec: dev scores are external evaluator objects carrying
their own direction of comparison ("lower perplexity is better, higher
accuracy is better — delegated to the score value's own comparison rule"). -/
structure Score where
  val : ℚ
  higher_better : Bool
  deriving DecidableEq, Repr

/-- Modelled from the spec: `dev_score.better_than(best)` — strictly better
under the score's own ordering; "first-ever dev score is always better than a
null best". -/
def Score.better_than (s : Score) (o : Option Score) : Bool :=
  match o with
  | none => true
  | some b => if s.higher_better then decide (b.val < s.val) else decide (s.val < b.val)

/-- One target-batch element as consumed by
`BatchLossTracker.count_trg_words`: either a bare integer token or a nested
sequence of tokens. -/
inductive TrgItem where
  | int (n : ℤ)
  | seq (l : List ℤ)
  deriving DecidableEq, Repr

namespace Vocab

/-- Modelled from the spec: `Vocab.ES`, the sentinel end-of-sequence marker
token defined in the external `xnmt.vocab` module; only its role as a fixed
sentinel value matters here. -/
def ES : ℤ := 2

end Vocab

/-- State of a `LossTracker` (fields of `LossTracker.__init__`, plus
`total_train_sent`, which Python assigns only inside `on_new_epoch` and is
therefore modelled as an `Option`).  The training regimen is identified by an
opaque identity token (`is` comparison in Python). -/
structure LossTracker where
  training_regimen : ℕ
  eval_train_every : ℕ
  eval_dev_every : ℕ
  epoch_num : ℕ
  epoch_loss : LossBuilder
  epoch_words : ℕ
  sent_num : ℕ
  sent_num_not_report_train : ℕ
  sent_num_not_report_dev : ℕ
  fractional_epoch : ℚ
  dev_score : Option Score
  best_dev_score : Option Score
  dev_words : ℕ
  last_report_words : ℕ
  start_time : ℚ
  last_report_train_time : ℚ
  dev_start_time : ℚ
  total_train_sent : Option ℕ
  deriving DecidableEq, Repr

namespace LossTracker

/-- Embeds `LossTracker.__init__(training_regimen, eval_every, name)`; `now` is the
value of `time.time()` at construction. -/
def init (training_regimen eval_every : ℕ) (now : ℚ) : LossTracker where
  training_regimen := training_regimen
  eval_train_every := 1000
  eval_dev_every := eval_every
  epoch_num := 0
  epoch_loss := []
  epoch_words := 0
  sent_num := 0
  sent_num_not_report_train := 0
  sent_num_not_report_dev := 0
  fractional_epoch := 0
  dev_score := none
  best_dev_score := none
  dev_words := 0
  last_report_words := 0
  start_time := now
  last_report_train_time := now
  dev_start_time := now
  total_train_sent := none

/-- Embeds `LossTracker.on_new_epoch(training_regimen, num_sents)`; `now` is
`time.time()` at the event.  The handler acts only when the event's regimen is
this tracker's regimen. -/
def on_new_epoch (s : LossTracker) (training_regimen num_sents : ℕ) (now : ℚ) :
    LossTracker :=
  if training_regimen = s.training_regimen then
    { s with
      total_train_sent := some num_sents
      epoch_loss := []
      epoch_words := 0
      epoch_num := s.epoch_num + 1
      sent_num := 0
      sent_num_not_report_train := 0
      sent_num_not_report_dev := 0
      last_report_words := 0
      last_report_train_time := now }
  else s

end LossTracker

/-- Embeds `BatchLossTracker.count_trg_words(trg_words)`: the accumulator loop of the
source, counting tokens different from `Vocab.ES`. -/
def BatchLossTracker.count_trg_words (trg_words : List TrgItem) : ℕ :=
  trg_words.foldl
    (fun trg_cnt x =>
      match x with
      | .int n => trg_cnt + (if n ≠ Vocab.ES then 1 else 0)
      | .seq l => trg_cnt + (l.map (fun y => if y ≠ Vocab.ES then 1 else 0)).sum)
    0

/-- Embeds `BatchLossTracker.count_sent_num(obj) = len(obj)`. -/
def BatchLossTracker.count_sent_num {α : Type} (obj : List α) : ℕ :=
  obj.length

/-- Embeds `LossTracker.update_epoch_loss(src, trg, loss)`, with the counting methods
instantiated by the only concrete subclass, `BatchLossTracker`. -/
def LossTracker.update_epoch_loss {α : Type} (s : LossTracker) (src : List α)
    (trg : List TrgItem) (loss : LossBuilder) : LossTracker :=
  let batch_sent_num := BatchLossTracker.count_sent_num src
  { s with
    sent_num := s.sent_num + batch_sent_num
    sent_num_not_report_train := s.sent_num_not_report_train + batch_sent_num
    sent_num_not_report_dev := s.sent_num_not_report_dev + batch_sent_num
    epoch_words := s.epoch_words + BatchLossTracker.count_trg_words trg
    epoch_loss := LossBuilder.add s.epoch_loss loss }

/-- The numbers interpolated into the `report_train_process` log line (the
string template itself carries no further logic). -/
structure TrainReport where
  fractional_epoch : ℚ
  loss_per_word : ℚ
  words : ℕ
  words_per_sec : ℚ
  component_lines : List ℚ
  deriving DecidableEq, Repr

/-- The per-component loop of `report_train_process` (`for loss_name,
loss_values in self.epoch_loss: ...`), evaluating each printed
`loss_values / epoch_words` quotient in order. -/
def divEach (l : List (String × ℚ)) (w : ℚ) : Except PyErr (List ℚ) :=
  match l with
  | [] => .ok []
  | p :: rest => do
      let v ← pydiv p.2 w
      let vs ← divEach rest w
      pure (v :: vs)

/-- Result of `report_train_process`: the post-state, the Python return value
(`True` or `None`, i.e. `some true` or `none`), and the report that was
printed, when one was. -/
structure RTPResult where
  state : LossTracker
  ret : Option Bool
  report : Option TrainReport
  deriving DecidableEq, Repr

/-- Embeds `LossTracker.report_train_process()`, with `now` the instant `time.time()`
returns during the call.  Faithful points: the `or` in `print_report`
short-circuits, so `total_train_sent` is only read when needed; the counter is
reduced `% eval_train_every` before the fractional epoch and the three
divisions are evaluated (in source order: `sent_num / total_train_sent`, then
`epoch_loss.sum() / epoch_words`, then the words/sec quotient, each able to
raise `ZeroDivisionError`); without a fire the method returns `None`. -/
def LossTracker.report_train_process (s : LossTracker) (now : ℚ) :
    Except PyErr RTPResult := do
  let print_report ←
    if s.eval_train_every ≤ s.sent_num_not_report_train then pure true
    else
      match s.total_train_sent with
      | none => Except.error .attributeError
      | some total => pure (decide (s.sent_num = total))
  if print_report then
    let newCounter ← pymod s.sent_num_not_report_train s.eval_train_every
    let total ←
      match s.total_train_sent with
      | none => Except.error .attributeError
      | some total => pure total
    let frac ← pydiv (s.sent_num : ℚ) (total : ℚ)
    let fractional_epoch := ((s.epoch_num : ℚ) - 1) + frac
    let loss_per_word ← pydiv s.epoch_loss.sum (s.epoch_words : ℚ)
    let words_per_sec ←
      pydiv ((s.epoch_words : ℚ) - (s.last_report_words : ℚ))
        (now - s.last_report_train_time)
    let component_lines ←
      if 1 < s.epoch_loss.length then divEach s.epoch_loss (s.epoch_words : ℚ)
      else pure []
    let s' := { s with
      sent_num_not_report_train := newCounter
      fractional_epoch := fractional_epoch
      last_report_words := s.epoch_words
      last_report_train_time := now }
    pure ⟨s', some true, some ⟨fractional_epoch, loss_per_word, s.epoch_words, words_per_sec, component_lines⟩⟩
  else
    pure ⟨s, none, none⟩

/-- Embeds `LossTracker.should_report_dev()` (the `or` short-circuits before
`total_train_sent` is read). -/
def LossTracker.should_report_dev (s : LossTracker) : Except PyErr Bool :=
  if 0 < s.eval_dev_every then
    if s.eval_dev_every ≤ s.sent_num_not_report_dev then .ok true
    else
      match s.total_train_sent with
      | none => .error .attributeError
      | some total => .ok (decide (s.sent_num = total))
  else
    match s.total_train_sent with
    | none => .error .attributeError
    | some total => .ok (decide (total ≤ s.sent_num_not_report_dev))

/-- Result of `report_dev_and_check_model`: the post-state, the returned
`save_model` boolean, and the words/sec figure of the printed dev line. -/
structure RDCResult where
  state : LossTracker
  save_model : Bool
  dev_words_per_sec : ℚ
  deriving DecidableEq, Repr

/-- Embeds `LossTracker.report_dev_and_check_model(model_file)`, with `now` the
instant `time.time()` returns.  Source order: the local modulus base
(`eval_dev_every` or, when that is 0, `total_train_sent`), the `%` reduction
of the dev counter, the fractional epoch, the dev words/sec of the log line,
then `dev_score.better_than(best_dev_score)` (an `AttributeError` when
`dev_score` is still `None`), which gates the `best_dev_score` update. -/
def LossTracker.report_dev_and_check_model (s : LossTracker) (now : ℚ) :
    Except PyErr RDCResult := do
  let sent_num ←
    if s.eval_dev_every ≠ 0 then pure s.eval_dev_every
    else
      match s.total_train_sent with
      | none => Except.error .attributeError
      | some total => pure total
  let newDevCounter ← pymod s.sent_num_not_report_dev sent_num
  let total ←
    match s.total_train_sent with
    | none => Except.error .attributeError
    | some total => pure total
  let frac ← pydiv (s.sent_num : ℚ) (total : ℚ)
  let fractional_epoch := ((s.epoch_num : ℚ) - 1) + frac
  let dev_words_per_sec ← pydiv (s.dev_words : ℚ) (now - s.dev_start_time)
  let ds ←
    match s.dev_score with
    | none => Except.error .attributeError
    | some d => pure d
  let save_model := ds.better_than s.best_dev_score
  let s' := { s with
    sent_num_not_report_dev := newDevCounter
    fractional_epoch := fractional_epoch
    best_dev_score := if save_model then some ds else s.best_dev_score }
  pure ⟨s', save_model, dev_words_per_sec⟩

end Xnmt

namespace Xnmt

/-- A `TransductionBuilder` (LSTM / residual / pyramidal / convolutional): the
actual transduction is delegated to the external tensor library, so it is an
opaque function; the builder's only core-visible state is its dropout rate,
mutated by `set_dropout`. -/
structure Builder (σ : Type) where
  transduceFn : σ → σ
  cur_dropout : ℚ

/-- Embeds `builder.set_dropout(rate)`. -/
def Builder.set_dropout {σ : Type} (b : Builder σ) (rate : ℚ) : Builder σ :=
  { b with cur_dropout := rate }

/-- The external `segmenting_encoder.SegmentingEncoderBuilder`: opaque
transduction and reinforce-loss computations, plus a train-mode flag set by
`set_train`. -/
structure SegmentingEncoderBuilder (σ : Type) where
  transduceFn : σ → σ
  calc_reinforce_loss_fn : ℚ → ℚ → ℚ
  train : Bool

/-- The `lmbd` configuration dictionary of `SegmentingEncoder.__init__`
(keys `"start"`, `"min"`, `"max"`). -/
structure Lmbd where
  start : ℚ
  min : ℚ
  max : ℚ
  deriving DecidableEq, Repr

/-- State of a `SegmentingEncoder`: the epoch counter `ctr`, the annealed
coefficient `lmbd_val`, the schedule bounds, and the builder. -/
structure SegmentingEncoder (σ : Type) where
  ctr : ℕ
  lmbd_val : ℚ
  lmbd : Lmbd
  builder : SegmentingEncoderBuilder σ

/-- Embeds `SegmentingEncoder.__init__`: `ctr = 0`, `lmbd_val = lmbd["start"]`. -/
def SegmentingEncoder.init {σ : Type} (builder : SegmentingEncoderBuilder σ)
    (lmbd : Lmbd) : SegmentingEncoder σ :=
  ⟨0, lmbd.start, lmbd, builder⟩

/-- Embeds `SegmentingEncoder.new_epoch()`: increment `ctr`, recompute
`lmbd_val = 1e-3 * (2 ** ctr - 10)`, then `min` with `lmbd["max"]`, then `max`
with `lmbd["min"]`. -/
def SegmentingEncoder.new_epoch {σ : Type} (e : SegmentingEncoder σ) :
    SegmentingEncoder σ :=
  let ctr := e.ctr + 1
  let v1 : ℚ := (1 / 1000) * ((2 : ℚ) ^ ctr - 10)
  let v2 := min v1 e.lmbd.max
  let v3 := max v2 e.lmbd.min
  { e with ctr := ctr, lmbd_val := v3 }

/-- The closed set of `Encoder` variants of `encoder.py`.  The four
builder-backed variants differ only in which external builder they wrap, so
each carries a `Builder` plus its stored `dropout` hyperparameter; `modular`
carries the ordered list of child encoders (its `input_dim` argument is not
stored by `__init__`); `segmenting` carries the `SegmentingEncoder` state. -/
inductive Encoder (σ : Type) where
  | identity
  | lstm (builder : Builder σ) (dropout : ℚ)
  | residualLSTM (builder : Builder σ) (dropout : ℚ)
  | pyramidalLSTM (builder : Builder σ) (dropout : ℚ)
  | convBiRNN (builder : Builder σ) (dropout : ℚ)
  | modular (modules : List (Encoder σ))
  | segmenting (e : SegmentingEncoder σ)

mutual

/-- Embeds `transduce(sent)` per variant: identity returns the input re-wrapped, the
builder-backed variants delegate to their builder, `ModularEncoder.transduce`
runs `for module in self.modules: sent = module.transduce(sent)`, and
`SegmentingEncoder.transduce` delegates to its builder. -/
def Encoder.transduce {σ : Type} : Encoder σ → σ → σ
  | .identity, sent => sent
  | .lstm b _, sent => b.transduceFn sent
  | .residualLSTM b _, sent => b.transduceFn sent
  | .pyramidalLSTM b _, sent => b.transduceFn sent
  | .convBiRNN b _, sent => b.transduceFn sent
  | .modular mods, sent => Encoder.transduceMods mods sent
  | .segmenting e, sent => e.builder.transduceFn sent

/-- The loop body of `ModularEncoder.transduce`. -/
def Encoder.transduceMods {σ : Type} : List (Encoder σ) → σ → σ
  | [], sent => sent
  | m :: rest, sent => Encoder.transduceMods rest (Encoder.transduce m sent)

end

mutual

/-- Embeds `set_train(val)` per variant: a no-op on identity, `set_dropout(dropout
if val else 0.0)` on the builder-backed variants, a broadcast over the module
list for `ModularEncoder`, `builder.set_train(val)` for the segmenting
variant. -/
def Encoder.set_train {σ : Type} : Encoder σ → Bool → Encoder σ
  | .identity, _ => .identity
  | .lstm b d, val => .lstm (b.set_dropout (if val then d else 0)) d
  | .residualLSTM b d, val => .residualLSTM (b.set_dropout (if val then d else 0)) d
  | .pyramidalLSTM b d, val => .pyramidalLSTM (b.set_dropout (if val then d else 0)) d
  | .convBiRNN b d, val => .convBiRNN (b.set_dropout (if val then d else 0)) d
  | .modular mods, val => .modular (Encoder.setTrainMods mods val)
  | .segmenting e, val =>
      .segmenting { e with builder := { e.builder with train := val } }

/-- The loop body of `ModularEncoder.set_train`. -/
def Encoder.setTrainMods {σ : Type} : List (Encoder σ) → Bool → List (Encoder σ)
  | [], _ => []
  | m :: rest, val => Encoder.set_train m val :: Encoder.setTrainMods rest val

end

/-- Embeds `calc_reinforce_loss(reward)`: the base-class default returns `None` and
only `SegmentingEncoder` overrides it, with
`self.builder.calc_reinforce_loss(reward, self.lmbd_val)`. -/
def Encoder.calc_reinforce_loss {σ : Type} : Encoder σ → ℚ → Option ℚ
  | .segmenting e, reward => some (e.builder.calc_reinforce_loss_fn reward e.lmbd_val)
  | _, _ => none

/-- Discriminator for the segmenting variant. -/
def Encoder.isSegmenting {σ : Type} : Encoder σ → Bool
  | .segmenting _ => true
  | _ => false

/-- Embeds `ModularEncoder.__init__(input_dim, modules)`: only `self.modules =
modules` is executed; the `input_dim` argument is accepted and dropped. -/
def ModularEncoder.init {σ : Type} (input_dim : ℕ) (modules : List (Encoder σ)) :
    Encoder σ :=
  Encoder.modular modules

/-- The spec's clamp: `clamp(v, lo, hi) = max(min(v, hi), lo)`. -/
def clamp (v lo hi : ℚ) : ℚ :=
  max (min v hi) lo

end Xnmt

namespace Xnmt

/-- Spec-side word count of one target-batch element: a bare non-sentinel
integer counts as one word; a nested sequence contributes the number of its
tokens different from `Vocab.ES`. -/
def specTrgItemCount : TrgItem → ℕ
  | .int n => if n = Vocab.ES then 0 else 1
  | .seq l => l.countP (fun y => decide (y ≠ Vocab.ES))

/-- A concrete `lmbd` configuration whose `start` value (5) lies outside the
value the schedule formula gives at `ctr = 0`. -/
def lmbdEx : Lmbd := ⟨5, 0, 1⟩

/-- A trivial concrete segmenting builder over `Unit` sequences. -/
def segBuilderEx : SegmentingEncoderBuilder Unit :=
  ⟨fun u => u, fun _ _ => 0, false⟩

end Xnmt

namespace Xnmt

/-- Total number of source sentences in a list of `update_epoch_loss`
arguments (each a `(src, trg, loss)` triple). -/
def batchSents (updates : List (List Unit × List TrgItem × LossBuilder)) : ℕ :=
  (updates.map (fun u => u.1.length)).sum

/-- Feed a list of `(src, trg, loss)` batches to the tracker through
`update_epoch_loss`, in order. -/
def runUpdates (s : LossTracker) (updates : List (List Unit × List TrgItem × LossBuilder)) :
    LossTracker :=
  updates.foldl (fun t u => t.update_epoch_loss u.1 u.2.1 u.2.2) s

/-- A tracker state in mid-epoch that satisfies the firing condition of
`report_train_process` (`sent_num == total_train_sent`), with the report
requested at the very instant of the previous report anchor
(`last_report_train_time = 0`). -/
def trackerDivZero : LossTracker :=
  { LossTracker.init 7 0 0 with
      total_train_sent := some 100
      sent_num := 100
      sent_num_not_report_train := 100
      epoch_words := 50
      epoch_loss := [("loss", 25)] }

/-- A tracker state in mid-epoch where `report_train_process` does not fire
(counter below 1000 and the epoch not complete). -/
def trackerNoFire : LossTracker :=
  { LossTracker.init 7 0 0 with
      total_train_sent := some 100
      sent_num := 5
      sent_num_not_report_train := 5
      epoch_words := 3
      epoch_loss := [("loss", 6)] }

/-- A tracker state in mid-epoch where `report_train_process` fires because
the since-last-report counter reached 1000. -/
def trackerFire : LossTracker :=
  { LossTracker.init 7 0 0 with
      total_train_sent := some 100
      sent_num := 50
      sent_num_not_report_train := 1200
      epoch_words := 10
      epoch_loss := [("loss", 5)] }

/-- A tracker state ready for a dev report: a pending dev score of 3
(higher-better) against a stored best of 2. -/
def trackerDev : LossTracker :=
  { LossTracker.init 7 10 0 with
      total_train_sent := some 100
      sent_num := 40
      sent_num_not_report_dev := 12
      dev_words := 30
      dev_score := some ⟨3, true⟩
      best_dev_score := some ⟨2, true⟩ }

/-- A mid-run tracker state with nontrivial counters, used to exercise
`on_new_epoch`. -/
def trackerMidRun : LossTracker :=
  { LossTracker.init 7 5 0 with
      total_train_sent := some 80
      epoch_num := 2
      sent_num := 33
      sent_num_not_report_train := 33
      sent_num_not_report_dev := 13
      epoch_words := 200
      last_report_words := 150
      epoch_loss := [("mle", 9)]
      best_dev_score := some ⟨2, true⟩ }

end Xnmt

namespace Xnmt

/-- Decidable equality on `Except`, so that concrete runs of the embedded
methods can be checked by `decide`. -/
instance {ε α : Type} [DecidableEq ε] [DecidableEq α] : DecidableEq (Except ε α) :=
  fun a b =>
    match a, b with
    | .error e, .error f => decidable_of_iff (e = f) (by simp)
    | .error _, .ok _ => isFalse (fun hh => Except.noConfusion hh)
    | .ok _, .error _ => isFalse (fun hh => Except.noConfusion hh)
    | .ok a, .ok b => decidable_of_iff (a = b) (by simp)

/-! ### General helper lemmas -/

@[simp] theorem except_ok_bind {ε α β : Type} (a : α) (f : α → Except ε β) :
    (Except.ok a >>= f) = f a := rfl

@[simp] theorem except_error_bind {ε α β : Type} (e : ε) (f : α → Except ε β) :
    ((Except.error e : Except ε α) >>= f) = Except.error e := rfl

@[simp] theorem except_pure_eq {ε α : Type} (a : α) :
    (pure a : Except ε α) = Except.ok a := rfl

@[simp] theorem except_map_ok {ε α β : Type} (f : α → β) (a : α) :
    (Except.ok a : Except ε α).map f = Except.ok (f a) := rfl

@[simp] theorem except_map_error {ε α β : Type} (f : α → β) (e : ε) :
    (Except.error e : Except ε α).map f = Except.error e := rfl

/-- The loop of `ModularEncoder.transduce` is a left fold over the modules. -/
theorem transduceMods_eq_foldl {σ : Type} (mods : List (Encoder σ)) (s : σ) :
    Encoder.transduceMods mods s = mods.foldl (fun acc m => m.transduce acc) s := by
  induction mods generalizing s with
  | nil => rfl
  | cons m rest ih => simp [Encoder.transduceMods, ih]

/-- The loop of `ModularEncoder.set_train` is a map over the modules. -/
theorem setTrainMods_eq_map {σ : Type} (mods : List (Encoder σ)) (v : Bool) :
    Encoder.setTrainMods mods v = mods.map (fun m => m.set_train v) := by
  induction mods with
  | nil => rfl
  | cons m rest ih => simp [Encoder.setTrainMods, ih]

/-- Summing the 0/1 indicator of "not the sentinel" counts the non-sentinel
tokens. -/
theorem sum_indicator_eq_countP (l : List ℤ) :
    (l.map (fun y => if y ≠ Vocab.ES then 1 else 0)).sum
      = l.countP (fun y => decide (y ≠ Vocab.ES)) := by
  induction l with
  | nil => rfl
  | cons y rest ih =>
      rw [List.map_cons, List.sum_cons, List.countP_cons, ih]
      by_cases h : y = Vocab.ES
      · simp [h]
      · simp [h, Nat.add_comm]

/-- The accumulator loop of `count_trg_words`, for an arbitrary starting
count. -/
theorem count_trg_words_aux (l : List TrgItem) (a : ℕ) :
    l.foldl
      (fun trg_cnt x =>
        match x with
        | .int n => trg_cnt + (if n ≠ Vocab.ES then 1 else 0)
        | .seq s => trg_cnt + (s.map (fun y => if y ≠ Vocab.ES then 1 else 0)).sum)
      a
      = a + (l.map specTrgItemCount).sum := by
  induction l generalizing a with
  | nil => simp
  | cons x rest ih =>
      rw [List.foldl_cons, ih, List.map_cons, List.sum_cons]
      cases x with
      | int n =>
          by_cases h : n = Vocab.ES <;> simp [specTrgItemCount, h] <;> omega
      | seq s =>
          dsimp only
          rw [sum_indicator_eq_countP]
          simp only [specTrgItemCount]
          omega

/-- Value of `ctr` after one `new_epoch`. -/
@[simp] theorem seg_new_epoch_ctr {σ : Type} (e : SegmentingEncoder σ) :
    e.new_epoch.ctr = e.ctr + 1 := rfl

/-- The call `new_epoch` leaves the schedule configuration unchanged. -/
@[simp] theorem seg_new_epoch_lmbd {σ : Type} (e : SegmentingEncoder σ) :
    e.new_epoch.lmbd = e.lmbd := rfl

/-- One `new_epoch` recomputes `lmbd_val` as the clamped schedule value at the
incremented counter. -/
theorem seg_new_epoch_lmbd_val {σ : Type} (e : SegmentingEncoder σ) :
    e.new_epoch.lmbd_val
      = clamp ((1 / 1000) * ((2 : ℚ) ^ (e.ctr + 1) - 10)) e.lmbd.min e.lmbd.max := rfl

/-- Value of `ctr` after `N` iterated `new_epoch` calls. -/
theorem seg_iterate_ctr {σ : Type} (e : SegmentingEncoder σ) (N : ℕ) :
    (SegmentingEncoder.new_epoch^[N] e).ctr = e.ctr + N := by
  induction N with
  | zero => simp
  | succ n ih => rw [Function.iterate_succ_apply', seg_new_epoch_ctr, ih, Nat.add_assoc]

/-- Iterated `new_epoch` calls leave the schedule configuration unchanged. -/
theorem seg_iterate_lmbd {σ : Type} (e : SegmentingEncoder σ) (N : ℕ) :
    (SegmentingEncoder.new_epoch^[N] e).lmbd = e.lmbd := by
  induction N with
  | zero => simp
  | succ n ih => rw [Function.iterate_succ_apply', seg_new_epoch_lmbd, ih]

/-- The clamped value is at least the lower bound. -/
theorem le_clamp (v lo hi : ℚ) : lo ≤ clamp v lo hi :=
  le_max_right _ _

/-- The clamped value is at most the upper bound, provided the bounds are
ordered. -/
theorem clamp_le (v lo hi : ℚ) (h : lo ≤ hi) : clamp v lo hi ≤ hi :=
  max_le (min_le_right _ _) h

/-! ### Claim theorems (encoders) -/

/-- C4 (amended): for every `N ≥ 1`, after exactly `N` calls to `new_epoch`
the value of `lambda_val` equals `clamp(1e-3 * (2^N − 10), min, max)`, and —
whenever the configured bounds satisfy `min ≤ max` — `lambda_val` lies within
`[min, max]` after any `new_epoch` update.  (At `N = 0` the value is the
configured `start`, not the schedule formula.) -/
theorem segmenting_lambda_schedule {σ : Type} (b : SegmentingEncoderBuilder σ)
    (l : Lmbd) (N : ℕ) (hN : 1 ≤ N) (hlm : l.min ≤ l.max) :
    (SegmentingEncoder.new_epoch^[N] (SegmentingEncoder.init b l)).lmbd_val
        = clamp ((1 / 1000) * ((2 : ℚ) ^ N - 10)) l.min l.max ∧
      l.min ≤ (SegmentingEncoder.new_epoch^[N] (SegmentingEncoder.init b l)).lmbd_val ∧
      (SegmentingEncoder.new_epoch^[N] (SegmentingEncoder.init b l)).lmbd_val ≤ l.max ∧
      ∀ e : SegmentingEncoder σ, e.lmbd.min ≤ e.lmbd.max →
        e.lmbd.min ≤ e.new_epoch.lmbd_val ∧ e.new_epoch.lmbd_val ≤ e.lmbd.max := by
  obtain ⟨M, rfl⟩ : ∃ M, N = M + 1 := ⟨N - 1, (Nat.succ_pred_eq_of_pos hN).symm⟩
  have hval :
      (SegmentingEncoder.new_epoch^[M + 1] (SegmentingEncoder.init b l)).lmbd_val
        = clamp ((1 / 1000) * ((2 : ℚ) ^ (M + 1) - 10)) l.min l.max := by
    rw [Function.iterate_succ_apply', seg_new_epoch_lmbd_val, seg_iterate_ctr,
      seg_iterate_lmbd]
    simp [SegmentingEncoder.init]
  refine ⟨hval, ?_, ?_, ?_⟩
  · rw [hval]; exact le_clamp _ _ _
  · rw [hval]; exact clamp_le _ _ _ hlm
  · intro e he
    rw [seg_new_epoch_lmbd_val]
    exact ⟨le_clamp _ _ _, clamp_le _ _ _ he⟩

/-- C4 witness: the amended claim applied at `N = 1` with the concrete
configuration `start = 5, min = 0, max = 1`. -/
theorem segmenting_lambda_schedule_witness :
    (SegmentingEncoder.new_epoch^[1] (SegmentingEncoder.init segBuilderEx lmbdEx)).lmbd_val
      = clamp ((1 / 1000) * ((2 : ℚ) ^ (1 : ℕ) - 10)) lmbdEx.min lmbdEx.max :=
  (segmenting_lambda_schedule segBuilderEx lmbdEx 1 (by decide) (by decide)).1

/-- C4 counterexample: with `start = 5, min = 0, max = 1`, after `N = 0` calls
to `new_epoch` the value of `lambda_val` is the configured `start` (5), while
`clamp(1e-3 * (2^0 − 10), min, max) = 0`, so the claimed formula fails at
`N = 0`. -/
theorem segmenting_lambda_counterexample :
    (SegmentingEncoder.new_epoch^[0] (SegmentingEncoder.init segBuilderEx lmbdEx)).lmbd_val = 5 ∧
      clamp ((1 / 1000) * ((2 : ℚ) ^ (0 : ℕ) - 10)) lmbdEx.min lmbdEx.max = 0 ∧
      (5 : ℚ) ≠ 0 := by
  refine ⟨rfl, ?_, by norm_num⟩
  norm_num [clamp, lmbdEx]

/-- C7: every `Encoder` variant other than `SegmentingEncoder` inherits the
base-class `calc_reinforce_loss`, returning the null "no extra loss" value
(`None`); the segmenting variant returns the builder's reinforce loss with the
current `lambda_val` as coefficient. -/
theorem calc_reinforce_loss_spec {σ : Type} (e : Encoder σ) (reward : ℚ) :
    (e.isSegmenting = false → e.calc_reinforce_loss reward = none) ∧
      ∀ se : SegmentingEncoder σ, e = Encoder.segmenting se →
        e.calc_reinforce_loss reward
          = some (se.builder.calc_reinforce_loss_fn reward se.lmbd_val) := by
  cases e <;>
    simp [Encoder.calc_reinforce_loss, Encoder.isSegmenting]

/-- C7 witness: the claim applied to the identity variant (null loss) and to a
concrete segmenting encoder. -/
theorem calc_reinforce_loss_spec_witness :
    Encoder.calc_reinforce_loss (Encoder.identity : Encoder Unit) 1 = none ∧
      Encoder.calc_reinforce_loss
          (Encoder.segmenting (SegmentingEncoder.init segBuilderEx lmbdEx)) 1
        = some ((SegmentingEncoder.init segBuilderEx lmbdEx).builder.calc_reinforce_loss_fn 1
            (SegmentingEncoder.init segBuilderEx lmbdEx).lmbd_val) :=
  ⟨(calc_reinforce_loss_spec (Encoder.identity : Encoder Unit) 1).1 rfl,
    (calc_reinforce_loss_spec
        (Encoder.segmenting (SegmentingEncoder.init segBuilderEx lmbdEx)) 1).2
      (SegmentingEncoder.init segBuilderEx lmbdEx) rfl⟩

/-- C8: `ModularEncoder.transduce` applies the children strictly in list
order, each output feeding the next input (a left fold; equivalently, peeling
the head first), and `set_train` broadcasts to every child. -/
theorem modular_transduce_set_train {σ : Type} (mods : List (Encoder σ)) (s : σ)
    (v : Bool) :
    (Encoder.modular mods).transduce s
        = mods.foldl (fun acc m => m.transduce acc) s ∧
      (∀ m : Encoder σ, ∀ rest : List (Encoder σ),
        (Encoder.modular (m :: rest)).transduce s
          = (Encoder.modular rest).transduce (m.transduce s)) ∧
      (Encoder.modular mods).set_train v
        = Encoder.modular (mods.map (fun m => m.set_train v)) := by
  refine ⟨?_, ?_, ?_⟩
  · simp [Encoder.transduce, transduceMods_eq_foldl]
  · intro m rest
    simp [Encoder.transduce, Encoder.transduceMods]
  · simp [Encoder.set_train, setTrainMods_eq_map]

/-- C9: `ModularEncoder.__init__` stores only the module list and drops its
`input_dim` argument, so the observable behavior (`transduce`, `set_train`) is
independent of `input_dim`. -/
theorem modular_input_dim_irrelevant {σ : Type} (d₁ d₂ : ℕ)
    (mods : List (Encoder σ)) (s : σ) (v : Bool) :
    (ModularEncoder.init d₁ mods).transduce s
        = (ModularEncoder.init d₂ mods).transduce s ∧
      (ModularEncoder.init d₁ mods).set_train v
        = (ModularEncoder.init d₂ mods).set_train v :=
  ⟨rfl, rfl⟩

/-- C10: `BatchLossTracker.count_trg_words` accepts heterogeneous batches and
returns the total number of tokens different from the `Vocab.ES` sentinel,
counting a bare non-sentinel integer element as one word and summing nested
sequences element-wise. -/
theorem count_trg_words_spec (batch : List TrgItem) :
    BatchLossTracker.count_trg_words batch = (batch.map specTrgItemCount).sum := by
  simpa [BatchLossTracker.count_trg_words] using count_trg_words_aux batch 0

end Xnmt

namespace Xnmt

/-- The guarded per-component division loop succeeds when the word count is
nonzero. -/
theorem divEach_ok (l : List (String × ℚ)) (w : ℚ) (hw : w ≠ 0) :
    divEach l w = .ok (l.map (fun p => p.2 / w)) := by
  induction l with
  | nil => rfl
  | cons p rest ih => simp [divEach, pydiv, hw, ih]

/-- Full evaluation of `report_train_process` on a firing state (counter at
1000 or epoch complete), with all divisors nonzero. -/
theorem report_train_process_fire_eval (s : LossTracker) (now : ℚ) (T : ℕ)
    (hT : s.total_train_sent = some T) (hT0 : T ≠ 0)
    (hev : s.eval_train_every = 1000)
    (hw : s.epoch_words ≠ 0)
    (ht : now ≠ s.last_report_train_time)
    (hfire : 1000 ≤ s.sent_num_not_report_train ∨ s.sent_num = T) :
    s.report_train_process now = .ok
      ⟨{ s with
          sent_num_not_report_train := s.sent_num_not_report_train % 1000
          fractional_epoch := ((s.epoch_num : ℚ) - 1) + (s.sent_num : ℚ) / (T : ℚ)
          last_report_words := s.epoch_words
          last_report_train_time := now },
        some true,
        some ⟨((s.epoch_num : ℚ) - 1) + (s.sent_num : ℚ) / (T : ℚ),
          s.epoch_loss.sum / (s.epoch_words : ℚ),
          s.epoch_words,
          ((s.epoch_words : ℚ) - (s.last_report_words : ℚ)) / (now - s.last_report_train_time),
          if 1 < s.epoch_loss.length then s.epoch_loss.map (fun p => p.2 / (s.epoch_words : ℚ))
          else []⟩⟩ := by
  have hwQ : (s.epoch_words : ℚ) ≠ 0 := Nat.cast_ne_zero.mpr hw
  have hTQ : (T : ℚ) ≠ 0 := Nat.cast_ne_zero.mpr hT0
  have htQ : now - s.last_report_train_time ≠ 0 := sub_ne_zero.mpr ht
  by_cases h1 : 1000 ≤ s.sent_num_not_report_train
  · by_cases hlen : 1 < s.epoch_loss.length <;>
      simp [LossTracker.report_train_process, hev, h1, hT, hT0, hw, pymod, pydiv, hwQ,
        hTQ, htQ, hlen, divEach_ok _ _ hwQ]
  · have h2 : s.sent_num = T := hfire.resolve_left h1
    by_cases hlen : 1 < s.epoch_loss.length <;>
      simp [LossTracker.report_train_process, hev, h1, h2, hT, hT0, hw, pymod, pydiv,
        hwQ, hTQ, htQ, hlen, divEach_ok _ _ hwQ]

/-- Evaluation of `report_train_process` on a non-firing state: the state is
untouched and the Python return value is `None`. -/
theorem report_train_process_nofire_eval (s : LossTracker) (now : ℚ) (T : ℕ)
    (hT : s.total_train_sent = some T)
    (hev : s.eval_train_every = 1000)
    (h1 : ¬1000 ≤ s.sent_num_not_report_train)
    (h2 : s.sent_num ≠ T) :
    s.report_train_process now = .ok ⟨s, none, none⟩ := by
  simp [LossTracker.report_train_process, hev, h1, h2, hT]

/-! ### Claim theorems (tracker) -/

/-- C1 (code bug): on a state where `report_train_process` fires
(`sent_num == total_train_sent`), calling it at a wall-clock instant equal to
the last report anchor makes the words/sec computation divide by a zero
wall-clock delta, and the code raises `ZeroDivisionError` instead of yielding
a sentinel rate. -/
theorem report_train_process_at_anchor_raises :
    LossTracker.report_train_process trackerDivZero 0 = .error .zeroDivision := by
  norm_num [trackerDivZero, LossTracker.init, LossTracker.report_train_process,
    pymod, pydiv]

/-- C2 (amended): `report_train_process` fires exactly when
`sent_num_not_report_train >= 1000` or `sent_num == total_train_sent`; on
firing it resets the counter to its remainder mod 1000 (hence below 1000) and
returns `True`; when it does not fire it leaves the state unchanged and
returns `None` (a falsy non-boolean), not the boolean `False`. -/
theorem report_train_process_spec (s : LossTracker) (now : ℚ) (T : ℕ)
    (hT : s.total_train_sent = some T) (hT0 : T ≠ 0)
    (hev : s.eval_train_every = 1000)
    (hw : s.epoch_words ≠ 0)
    (ht : now ≠ s.last_report_train_time) :
    ((s.report_train_process now).map RTPResult.ret
        = .ok (if 1000 ≤ s.sent_num_not_report_train ∨ s.sent_num = T
            then some true else none)) ∧
      ((s.report_train_process now).map (fun r => r.state.sent_num_not_report_train)
        = .ok (if 1000 ≤ s.sent_num_not_report_train ∨ s.sent_num = T
            then s.sent_num_not_report_train % 1000
            else s.sent_num_not_report_train)) ∧
      ((1000 ≤ s.sent_num_not_report_train ∨ s.sent_num = T) →
        (s.report_train_process now).map
            (fun r => decide (r.state.sent_num_not_report_train < 1000)) = .ok true) ∧
      (¬(1000 ≤ s.sent_num_not_report_train ∨ s.sent_num = T) →
        (s.report_train_process now).map RTPResult.state = .ok s) := by
  by_cases hfire : 1000 ≤ s.sent_num_not_report_train ∨ s.sent_num = T
  · rw [report_train_process_fire_eval s now T hT hT0 hev hw ht hfire]
    refine ⟨by simp [hfire], by simp [hfire], fun _ => ?_, fun hn => absurd hfire hn⟩
    simp [Nat.mod_lt _ (by norm_num : (0:ℕ) < 1000)]
  · push_neg at hfire
    rw [report_train_process_nofire_eval s now T hT hev
      (by simpa using hfire.1) hfire.2]
    have hcond : ¬(1000 ≤ s.sent_num_not_report_train ∨ s.sent_num = T) := by
      push_neg
      exact hfire
    simp [hcond]

/-- C2 witness: the amended claim applied to the concrete firing state
`trackerFire` (counter 1200, epoch incomplete) at instant 1. -/
theorem report_train_process_spec_witness :
    (trackerFire.report_train_process 1).map RTPResult.ret = .ok (some true) :=
  (report_train_process_spec trackerFire 1 100 rfl (by decide) rfl (by decide)
      (by norm_num [trackerFire, LossTracker.init])).1.trans
    (by norm_num [trackerFire, LossTracker.init])

/-- C2 counterexample: on the concrete non-firing state `trackerNoFire`
(counter 5, 5 of 100 sentences seen) the call leaves the state unchanged and
returns Python `None` — not the boolean `False` the claim asserts. -/
theorem report_train_process_returns_none :
    LossTracker.report_train_process trackerNoFire 1 = .ok ⟨trackerNoFire, none, none⟩ ∧
      (none : Option Bool) ≠ some false :=
  ⟨report_train_process_nofire_eval trackerNoFire 1 100 rfl rfl (by decide) (by decide),
    by decide⟩

end Xnmt

namespace Xnmt

/-- C3: `report_dev_and_check_model` returns true exactly when the pending dev
score is strictly better than `best_dev_score` under the score's own ordering
(a still-null best always counts as beaten), and updates `best_dev_score` to
the current score exactly in that case. -/
theorem report_dev_and_check_model_spec (s : LossTracker) (now : ℚ) (T : ℕ)
    (d : Score)
    (hT : s.total_train_sent = some T) (hT0 : T ≠ 0)
    (hd : s.dev_score = some d)
    (ht : now ≠ s.dev_start_time) :
    ((s.report_dev_and_check_model now).map RDCResult.save_model
        = .ok (d.better_than s.best_dev_score)) ∧
      ((s.report_dev_and_check_model now).map (fun r => r.state.best_dev_score)
        = .ok (if d.better_than s.best_dev_score then some d else s.best_dev_score)) ∧
      (s.best_dev_score = none → d.better_than s.best_dev_score = true) ∧
      (∀ b : Score, s.best_dev_score = some b →
        (d.better_than s.best_dev_score = true ↔
          if d.higher_better = true then b.val < d.val else d.val < b.val)) := by
  have hTQ : (T : ℚ) ≠ 0 := Nat.cast_ne_zero.mpr hT0
  have htQ : now - s.dev_start_time ≠ 0 := sub_ne_zero.mpr ht
  refine ⟨?_, ?_, ?_, ?_⟩
  · by_cases he : s.eval_dev_every = 0 <;>
      simp [LossTracker.report_dev_and_check_model, he, hT, hT0, hd, pymod, pydiv,
        hTQ, htQ]
  · by_cases he : s.eval_dev_every = 0 <;>
      simp [LossTracker.report_dev_and_check_model, he, hT, hT0, hd, pymod, pydiv,
        hTQ, htQ]
  · intro h
    simp [Score.better_than, h]
  · intro b hb
    cases hh : d.higher_better <;> simp [Score.better_than, hb, hh]

/-- C3 witness: on `trackerDev` (pending higher-better score 3 against best 2)
the call returns true and stores the new best. -/
theorem report_dev_and_check_model_spec_witness :
    (trackerDev.report_dev_and_check_model 1).map RDCResult.save_model = .ok true ∧
      (trackerDev.report_dev_and_check_model 1).map (fun r => r.state.best_dev_score)
        = .ok (some ⟨3, true⟩) := by
  have h := report_dev_and_check_model_spec trackerDev 1 100 ⟨3, true⟩ rfl
    (by decide) rfl (by norm_num [trackerDev, LossTracker.init])
  exact ⟨h.1.trans (by norm_num [trackerDev, LossTracker.init, Score.better_than]),
    h.2.1.trans (by norm_num [trackerDev, LossTracker.init, Score.better_than])⟩

/-- Running `runUpdates` adds the batch sentence total to
`sent_num_not_report_dev`. -/
theorem runUpdates_sent_num_not_report_dev
    (us : List (List Unit × List TrgItem × LossBuilder)) :
    ∀ s : LossTracker,
      (runUpdates s us).sent_num_not_report_dev
        = s.sent_num_not_report_dev + batchSents us := by
  induction us with
  | nil => intro s; simp [runUpdates, batchSents]
  | cons u rest ih =>
      intro s
      show (runUpdates (s.update_epoch_loss u.1 u.2.1 u.2.2) rest).sent_num_not_report_dev = _
      rw [ih]
      simp [LossTracker.update_epoch_loss, BatchLossTracker.count_sent_num, batchSents]
      omega

/-- Running `runUpdates` never changes `eval_dev_every`. -/
theorem runUpdates_eval_dev_every
    (us : List (List Unit × List TrgItem × LossBuilder)) :
    ∀ s : LossTracker, (runUpdates s us).eval_dev_every = s.eval_dev_every := by
  induction us with
  | nil => intro s; simp [runUpdates]
  | cons u rest ih =>
      intro s
      show (runUpdates (s.update_epoch_loss u.1 u.2.1 u.2.2) rest).eval_dev_every = _
      rw [ih]
      simp [LossTracker.update_epoch_loss]

/-- Running `runUpdates` never changes `total_train_sent`. -/
theorem runUpdates_total_train_sent
    (us : List (List Unit × List TrgItem × LossBuilder)) :
    ∀ s : LossTracker, (runUpdates s us).total_train_sent = s.total_train_sent := by
  induction us with
  | nil => intro s; simp [runUpdates]
  | cons u rest ih =>
      intro s
      show (runUpdates (s.update_epoch_loss u.1 u.2.1 u.2.2) rest).total_train_sent = _
      rw [ih]
      simp [LossTracker.update_epoch_loss]

/-- A prefix of the updates carries at most the full sentence total. -/
theorem batchSents_take_le (us : List (List Unit × List TrgItem × LossBuilder))
    (k : ℕ) : batchSents (us.take k) ≤ batchSents us := by
  induction us generalizing k with
  | nil => simp [batchSents]
  | cons u rest ih =>
      cases k with
      | zero => simp [batchSents]
      | succ k =>
          simp only [List.take_succ_cons, batchSents, List.map_cons, List.sum_cons]
          exact Nat.add_le_add_left (ih k) _

/-- C5: with `eval_dev_every = 0` and `total_train_sent = 100`, after starting
an epoch and feeding any prefix of a batch sequence totalling 100 sentences,
`should_report_dev` returns true exactly when the prefix has counted all 100
sentences, and false at every earlier point. -/
theorem should_report_dev_once_per_epoch
    (updates : List (List Unit × List TrgItem × LossBuilder)) (r k : ℕ)
    (t0 t1 : ℚ)
    (hsum : batchSents updates = 100) :
    (runUpdates ((LossTracker.init r 0 t0).on_new_epoch r 100 t1)
        (updates.take k)).should_report_dev
      = .ok (decide (batchSents (updates.take k) = 100)) := by
  have h1 : ((LossTracker.init r 0 t0).on_new_epoch r 100 t1).sent_num_not_report_dev = 0 := by
    simp [LossTracker.init, LossTracker.on_new_epoch]
  have h2 : ((LossTracker.init r 0 t0).on_new_epoch r 100 t1).eval_dev_every = 0 := by
    simp [LossTracker.init, LossTracker.on_new_epoch]
  have h3 : ((LossTracker.init r 0 t0).on_new_epoch r 100 t1).total_train_sent = some 100 := by
    simp [LossTracker.init, LossTracker.on_new_epoch]
  have hdev := runUpdates_sent_num_not_report_dev (updates.take k)
    ((LossTracker.init r 0 t0).on_new_epoch r 100 t1)
  have hev := runUpdates_eval_dev_every (updates.take k)
    ((LossTracker.init r 0 t0).on_new_epoch r 100 t1)
  have htot := runUpdates_total_train_sent (updates.take k)
    ((LossTracker.init r 0 t0).on_new_epoch r 100 t1)
  have hle : batchSents (updates.take k) ≤ 100 := hsum ▸ batchSents_take_le updates k
  rw [LossTracker.should_report_dev, hev, h2, hdev, h1, htot, h3]
  simp only [Nat.lt_irrefl, if_false, Nat.zero_add]
  rw [Except.ok.injEq, decide_eq_decide]
  omega

/-- C5 witness: a single batch of 100 sentences; after feeding it,
`should_report_dev` returns true. -/
theorem should_report_dev_once_per_epoch_witness :
    (runUpdates ((LossTracker.init 7 0 0).on_new_epoch 7 100 1)
        ([(List.replicate 100 (), ([] : List TrgItem), ([] : LossBuilder))].take 1)).should_report_dev
      = .ok true := by
  have h := should_report_dev_once_per_epoch
    [(List.replicate 100 (), ([] : List TrgItem), ([] : LossBuilder))] 7 1 0 1
    (by simp [batchSents])
  simpa [batchSents] using h

/-- C6: `on_new_epoch` ignores events from a different training regimen
(the tracker is left unchanged, every field included); on a matching
regimen it clears the epoch counters (`epoch_loss`, `epoch_words`,
`sent_num`, both since-last-report counters, `last_report_words`),
increments `epoch_num`, stores `num_sents` as `total_train_sent`, and leaves
`best_dev_score` untouched. -/
theorem on_new_epoch_spec (s : LossTracker) (r n : ℕ) (t : ℚ) :
    (r ≠ s.training_regimen → s.on_new_epoch r n t = s) ∧
      (r = s.training_regimen →
        (s.on_new_epoch r n t).epoch_loss = [] ∧
          (s.on_new_epoch r n t).epoch_words = 0 ∧
          (s.on_new_epoch r n t).sent_num = 0 ∧
          (s.on_new_epoch r n t).sent_num_not_report_train = 0 ∧
          (s.on_new_epoch r n t).sent_num_not_report_dev = 0 ∧
          (s.on_new_epoch r n t).last_report_words = 0 ∧
          (s.on_new_epoch r n t).epoch_num = s.epoch_num + 1 ∧
          (s.on_new_epoch r n t).total_train_sent = some n ∧
          (s.on_new_epoch r n t).best_dev_score = s.best_dev_score) := by
  constructor
  · intro h
    simp [LossTracker.on_new_epoch, h]
  · intro h
    simp [LossTracker.on_new_epoch, h]

/-- C6 witness: a mismatching event (regimen 8 vs 7) leaves `trackerMidRun`
unchanged; a matching one increments the epoch and keeps the best dev
score. -/
theorem on_new_epoch_spec_witness :
    trackerMidRun.on_new_epoch 8 30 2 = trackerMidRun ∧
      (trackerMidRun.on_new_epoch 7 30 2).epoch_num = trackerMidRun.epoch_num + 1 ∧
      (trackerMidRun.on_new_epoch 7 30 2).best_dev_score = trackerMidRun.best_dev_score :=
  ⟨(on_new_epoch_spec trackerMidRun 8 30 2).1 (by decide),
    ((on_new_epoch_spec trackerMidRun 7 30 2).2 (by decide)).2.2.2.2.2.2.1,
    ((on_new_epoch_spec trackerMidRun 7 30 2).2 (by decide)).2.2.2.2.2.2.2.2⟩

end Xnmt
